import Mathlib

/-!
Verification of the zen_ai backend (Flask + Firestore + Gemini relay).

This file gives a shallow embedding of the parts of the backend that the
specification talks about:

* `zen_backend/ai/gemini.py` — the Gemini client with its three-signature
  timeout fallback, and chat-title post-processing;
* `zen_backend/chats/routes.py` — the `add_message` orchestration
  (validation, persistence, AI call, title auto-update) and the
  attachment-download path guard `_resolve_storage_path`;
* `zen_backend/notes/utils.py` and `zen_backend/notes/service.py` — trigger
  word extraction, list normalization and the note index invariant.

External collaborators (Firestore, the Gemini SDK, the filesystem) are
modelled as explicit state (`Store`) and oracles (`Env`): a document read
or write becomes a pure list operation, and each external Gemini call
becomes a function from call signature to outcome.  Python strings are
modelled through their character lists; `str.strip`, `str.lower` and
friends are re-implemented below (`py_strip`, `py_lower`, …) for the
character repertoire the backend actually handles (ASCII plus the Latin-1
letters that appear in the tokenizer character class).
-/

deriving instance DecidableEq for Except

/-! ### Python string primitives -/

/-- Characters removed by Python `str.strip()` (ASCII whitespace subset;
the backend only ever strips spaces, tabs and newlines). -/
def is_py_space (c : Char) : Bool :=
  c == ' ' || c == '\t' || c == '\n' || c == '\r' ||
  c == Char.ofNat 11 || c == Char.ofNat 12

/-- Drop characters matching `p` from both ends of a character list,
like Python `str.strip(chars)`. -/
def strip_while (p : Char → Bool) (cs : List Char) : List Char :=
  ((cs.dropWhile p).reverse.dropWhile p).reverse

/-- Drop characters matching `p` from the right end only,
like Python `str.rstrip(chars)`. -/
def rstrip_while (p : Char → Bool) (cs : List Char) : List Char :=
  (cs.reverse.dropWhile p).reverse

/-- Python `str.strip()` with no arguments. -/
def py_strip (s : String) : String := String.mk (strip_while is_py_space s.data)

/-- Python `str.rstrip()` with no arguments. -/
def py_rstrip (s : String) : String := String.mk (rstrip_while is_py_space s.data)

/-- Python `str.lower()` restricted to ASCII and the Latin-1 letter block:
`A`–`Z` and `À`–`Þ` (except `×`) map down by 0x20, everything else is kept. -/
def py_char_lower (c : Char) : Char :=
  if 'A' ≤ c && c ≤ 'Z' then Char.ofNat (c.toNat + 32)
  else if 'À' ≤ c && c ≤ 'Þ' && c ≠ '×' then Char.ofNat (c.toNat + 32)
  else c

/-- Python `str.lower()` (on the modelled character repertoire). -/
def py_lower (s : String) : String := String.mk (s.data.map py_char_lower)

/-- Python `a or b` for an optional string `a`: `b` when `a` is absent or
empty (falsy), `a` otherwise. -/
def py_or (a : Option String) (b : String) : String :=
  match a with
  | some s => if s == "" then b else s
  | none => b

/-- Python `a or b` for two strings. -/
def py_or_str (a b : String) : String := if a == "" then b else a

theorem length_dropWhile_le' (p : Char → Bool) (cs : List Char) :
    (cs.dropWhile p).length ≤ cs.length :=
  (List.dropWhile_suffix p).sublist.length_le

theorem strip_while_length_le (p : Char → Bool) (cs : List Char) :
    (strip_while p cs).length ≤ cs.length := by
  unfold strip_while
  calc ((cs.dropWhile p).reverse.dropWhile p).reverse.length
      = ((cs.dropWhile p).reverse.dropWhile p).length := by
        rw [List.length_reverse]
    _ ≤ (cs.dropWhile p).reverse.length := length_dropWhile_le' _ _
    _ = (cs.dropWhile p).length := by rw [List.length_reverse]
    _ ≤ cs.length := length_dropWhile_le' _ _

theorem rstrip_while_length_le (p : Char → Bool) (cs : List Char) :
    (rstrip_while p cs).length ≤ cs.length := by
  unfold rstrip_while
  calc (cs.reverse.dropWhile p).reverse.length
      = (cs.reverse.dropWhile p).length := by rw [List.length_reverse]
    _ ≤ cs.reverse.length := length_dropWhile_le' _ _
    _ = cs.length := by rw [List.length_reverse]

/-! ### C7 — attachment path resolution (`_resolve_storage_path`)

A filesystem path is modelled as its list of components below the
filesystem root (so `["data", "uploads"]` stands for `/data/uploads`).
`resolve_components` is `pathlib`'s `(root / relative_path).resolve()`
for a symlink-free tree: each `..` pops a component (staying at the
filesystem root when empty), `.` and empty components disappear, and any
other component is pushed.  `path_chars` renders the absolute path the
way `str(Path)` does, and `resolve_storage_path` performs exactly the
guard of the source: resolve, then `str(candidate).startswith(str(root))`. -/

/-- `(root / relative_path).resolve()` on component lists. -/
def resolve_components (root : List String) (rel : List String) : List String :=
  rel.foldl
    (fun acc comp =>
      if comp = ".." then acc.dropLast
      else if comp = "." ∨ comp = "" then acc
      else acc ++ [comp])
    root

/-- `str(Path)` for an absolute path given by its components. -/
def path_chars (comps : List String) : List Char :=
  if comps = [] then ['/']
  else comps.foldl (fun acc c => acc ++ '/' :: c.data) []

/-- `_resolve_storage_path`: resolve the joined path, then accept it only
when its string form starts with the string form of the upload root
(`str(candidate).startswith(str(root))`); `none` models the raised
`RuntimeError`. -/
def resolve_storage_path (root : List String) (rel : List String) :
    Option (List String) :=
  if (path_chars root).isPrefixOf (path_chars (resolve_components root rel))
  then some (resolve_components root rel)
  else none

theorem foldl_path_append (l : List String) (init : List Char) :
    l.foldl (fun acc c => acc ++ '/' :: c.data) init =
      init ++ l.foldl (fun acc c => acc ++ '/' :: c.data) [] := by
  induction l generalizing init with
  | nil => simp
  | cons x xs ih =>
    simp only [List.foldl_cons, List.nil_append]
    rw [ih (init ++ '/' :: x.data), ih ('/' :: x.data), List.append_assoc]

theorem path_chars_append (xs ys : List String) (hxs : xs ≠ []) :
    path_chars (xs ++ ys) =
      path_chars xs ++ ys.foldl (fun acc c => acc ++ '/' :: c.data) [] := by
  have hne : xs ++ ys ≠ [] := by
    intro h
    exact hxs (List.append_eq_nil.mp h).1
  unfold path_chars
  rw [if_neg hxs, if_neg hne, List.foldl_append, foldl_path_append ys]

theorem path_chars_head (ys : List String) :
    ∃ t, path_chars ys = '/' :: t := by
  cases ys with
  | nil => exact ⟨[], rfl⟩
  | cons y t =>
    refine ⟨y.data ++ t.foldl (fun acc c => acc ++ '/' :: c.data) [], ?_⟩
    unfold path_chars
    rw [if_neg (by simp : (y :: t : List String) ≠ [])]
    simp only [List.foldl_cons, List.nil_append]
    rw [foldl_path_append t ('/' :: y.data)]
    rfl

/-- A component-wise inclusion in the root forces a string-form inclusion. -/
theorem path_chars_mono {root cand : List String} (h : root <+: cand) :
    path_chars root <+: path_chars cand := by
  rcases h with ⟨t, rfl⟩
  by_cases hroot : root = []
  · subst hroot
    obtain ⟨u, hu⟩ := path_chars_head t
    rw [List.nil_append, hu]
    show path_chars [] <+: '/' :: u
    unfold path_chars
    rw [if_pos rfl]
    exact ⟨u, rfl⟩
  · rw [path_chars_append root t hroot]
    exact ⟨_, rfl⟩

/-- C7, counterexample.  The claim states that every path accepted by
`_resolve_storage_path` lies inside the upload root.  With upload root
`/data/uploads`, the stored storage path `../uploads2/secret.txt`
canonicalizes to `/data/uploads2/secret.txt`; the guard is the
string-prefix test `str(candidate).startswith(str(root))`, which accepts
it because `"/data/uploads2/secret.txt"` starts with `"/data/uploads"`,
yet the path does not lie inside the `/data/uploads` directory. -/
theorem resolve_storage_path_claim_false :
    resolve_storage_path ["data", "uploads"] ["..", "uploads2", "secret.txt"] =
      some ["data", "uploads2", "secret.txt"] ∧
    ¬ (["data", "uploads"] <+: ["data", "uploads2", "secret.txt"]) := by
  constructor
  · rfl
  · decide

/-- C7, amended.  `_resolve_storage_path` canonicalizes the joined path and
accepts exactly those candidates whose canonical string form has the upload
root's string form as a string prefix: every path that canonically resolves
inside the upload root is accepted and returned canonicalized, and every
accepted path has the root's rendered path as a prefix of its rendered
path — but, the comparison being on strings rather than on path components,
a sibling directory whose last component extends the root's last component
(such as `/data/uploads2` next to `/data/uploads`) also passes the guard. -/
theorem resolve_storage_path_guard (root rel : List String) :
    (root <+: resolve_components root rel →
      resolve_storage_path root rel = some (resolve_components root rel)) ∧
    (∀ p, resolve_storage_path root rel = some p →
      p = resolve_components root rel ∧
      (path_chars root).isPrefixOf (path_chars p) = true) := by
  constructor
  · intro hin
    have hpre : (path_chars root).isPrefixOf
        (path_chars (resolve_components root rel)) = true :=
      List.isPrefixOf_iff_prefix.mpr (path_chars_mono hin)
    unfold resolve_storage_path
    rw [hpre]
    simp
  · intro p hp
    unfold resolve_storage_path at hp
    by_cases hpre : (path_chars root).isPrefixOf
        (path_chars (resolve_components root rel)) = true
    · rw [hpre] at hp
      simp only [if_true] at hp
      cases hp
      exact ⟨rfl, hpre⟩
    · rw [Bool.not_eq_true] at hpre
      rw [hpre] at hp
      simp at hp

/-- C7, witness for `resolve_storage_path_guard`: a storage path
`invoices/march.pdf` under root `/data/uploads` resolves inside the root
and is accepted canonicalized. -/
theorem resolve_storage_path_guard_witness :
    resolve_storage_path ["data", "uploads"] ["invoices", "march.pdf"] =
      some ["data", "uploads", "invoices", "march.pdf"] :=
  (resolve_storage_path_guard ["data", "uploads"] ["invoices", "march.pdf"]).1
    (by decide)

/-! ### C1 — the Gemini generation client (`gemini.generate_reply`)

The genai SDK is abstracted as a client: a function from the call
signature being attempted to that call's outcome.  The three signatures
are exactly the three `client.models.generate_content` invocations of the
source: with `request_options={"timeout": ...}`, with a flat `timeout`
kwarg, and with neither.  A `TypeError` (malformed arguments for this SDK
version) is distinguished from every other exception.  Messages carry a
role and plain text content, which is how the chat orchestrator invokes
the client; inline binary parts and upload references of
`_format_messages` involve SDK handles and file I/O and are outside the
pure model. -/

/-- The three call signatures `generate_reply` attempts, in source order. -/
inductive CallSig
  | reqOptions
  | flatTimeout
  | noTimeout
deriving DecidableEq, Repr

/-- Outcome of one SDK invocation: a response with `.text`, a `TypeError`
from a rejected signature, or any other exception. -/
inductive CallOutcome
  | success (text : String)
  | typeError (msg : String)
  | apiFailure (msg : String)
deriving DecidableEq, Repr

/-- A role-tagged chat message (`{"role": ..., "content": ...}`). -/
structure GMessage where
  role : String
  content : String
deriving DecidableEq, Repr

/-- A formatted `types.Content`: mapped role plus stripped text. -/
structure GContent where
  role : String
  text : String
deriving DecidableEq, Repr

/-- The `role_map` of `_format_messages` (default `"user"`). -/
def map_gemini_role (role : String) : String :=
  if role == "user" then "user"
  else if role == "assistant" then "model"
  else if role == "model" then "model"
  else if role == "system" then "user"
  else "user"

/-- `_format_messages` for text-only messages: strip each message's
content, drop messages that end up with no parts, map roles. -/
def format_messages (messages : List GMessage) : List GContent :=
  messages.filterMap fun m =>
    let text := py_strip m.content
    if text == "" then none
    else some ⟨map_gemini_role m.role, text⟩

/-- Tail of `generate_reply`: `(response.text or "").strip()`, raising
`GeminiAPIError` when the stripped reply is empty. -/
def gemini_finalize (text : String) : Except String String :=
  let reply := py_strip text
  if reply == "" then Except.error "Gemini API returned an empty response"
  else Except.ok reply

/-- `generate_reply`: format the history (failing on an empty formatted
conversation), then attempt the three call signatures in order.  A
`TypeError` moves to the next signature; any other exception is wrapped
as `GeminiAPIError` (the `Except.error` case) immediately.  The first
component records which signatures were attempted, in order. -/
def generate_reply (client : CallSig → CallOutcome) (messages : List GMessage) :
    List CallSig × Except String String :=
  if format_messages messages = [] then
    ([], Except.error "At least one message with content is required.")
  else
    match client CallSig.reqOptions with
    | .success t => ([CallSig.reqOptions], gemini_finalize t)
    | .apiFailure m => ([CallSig.reqOptions], Except.error m)
    | .typeError _ =>
      match client CallSig.flatTimeout with
      | .success t => ([CallSig.reqOptions, CallSig.flatTimeout], gemini_finalize t)
      | .apiFailure m => ([CallSig.reqOptions, CallSig.flatTimeout], Except.error m)
      | .typeError _ =>
        match client CallSig.noTimeout with
        | .success t =>
          ([CallSig.reqOptions, CallSig.flatTimeout, CallSig.noTimeout], gemini_finalize t)
        | .apiFailure m =>
          ([CallSig.reqOptions, CallSig.flatTimeout, CallSig.noTimeout], Except.error m)
        | .typeError m =>
          ([CallSig.reqOptions, CallSig.flatTimeout, CallSig.noTimeout], Except.error m)

/-- A client that rejects the first two signatures with `TypeError` and
answers the third with the text `" hi "`. -/
def third_sig_client : CallSig → CallOutcome
  | CallSig.noTimeout => CallOutcome.success " hi "
  | _ => CallOutcome.typeError "unexpected keyword argument"

/-- C1, counterexample.  The claim says that when the first two signatures
fail with malformed-argument errors and the third succeeds, `generate_reply`
returns the third call's reply text.  With a third call that answers
`" hi "`, all three signatures are attempted in order, but the function
returns the stripped text `"hi"`, not the call's reply text `" hi "`. -/
theorem generate_reply_claim_false :
    third_sig_client CallSig.noTimeout = CallOutcome.success " hi " ∧
    generate_reply third_sig_client [⟨"user", "hello"⟩] =
      ([CallSig.reqOptions, CallSig.flatTimeout, CallSig.noTimeout], Except.ok "hi") ∧
    Except.ok "hi" ≠ (Except.ok " hi " : Except String String) := by
  exact ⟨rfl, rfl, by decide⟩

/-- C1, amended.  For every client and every history whose formatted
conversation is nonempty, `generate_reply` attempts the signatures in the
order structured-timeout, flat-timeout, no-timeout; a `TypeError` triggers
the next attempt, while any other failure is wrapped and raised
immediately with no further attempt; a successful call ends the fallback
and yields the reply's text stripped of surrounding whitespace (an
error if the stripped text is empty). -/
theorem generate_reply_fallback (client : CallSig → CallOutcome)
    (messages : List GMessage) (hne : format_messages messages ≠ []) :
    (∀ t, client CallSig.reqOptions = CallOutcome.success t →
      generate_reply client messages = ([CallSig.reqOptions], gemini_finalize t)) ∧
    (∀ m, client CallSig.reqOptions = CallOutcome.apiFailure m →
      generate_reply client messages = ([CallSig.reqOptions], Except.error m)) ∧
    (∀ e t, client CallSig.reqOptions = CallOutcome.typeError e →
      client CallSig.flatTimeout = CallOutcome.success t →
      generate_reply client messages =
        ([CallSig.reqOptions, CallSig.flatTimeout], gemini_finalize t)) ∧
    (∀ e m, client CallSig.reqOptions = CallOutcome.typeError e →
      client CallSig.flatTimeout = CallOutcome.apiFailure m →
      generate_reply client messages =
        ([CallSig.reqOptions, CallSig.flatTimeout], Except.error m)) ∧
    (∀ e₁ e₂ t, client CallSig.reqOptions = CallOutcome.typeError e₁ →
      client CallSig.flatTimeout = CallOutcome.typeError e₂ →
      client CallSig.noTimeout = CallOutcome.success t →
      generate_reply client messages =
        ([CallSig.reqOptions, CallSig.flatTimeout, CallSig.noTimeout],
          gemini_finalize t)) ∧
    (∀ e₁ e₂ m, client CallSig.reqOptions = CallOutcome.typeError e₁ →
      client CallSig.flatTimeout = CallOutcome.typeError e₂ →
      (client CallSig.noTimeout = CallOutcome.apiFailure m ∨
        client CallSig.noTimeout = CallOutcome.typeError m) →
      generate_reply client messages =
        ([CallSig.reqOptions, CallSig.flatTimeout, CallSig.noTimeout],
          Except.error m)) := by
  unfold generate_reply
  rw [if_neg hne]
  refine ⟨fun t h => by rw [h], fun m h => by rw [h],
    fun e t h₁ h₂ => by rw [h₁, h₂], fun e m h₁ h₂ => by rw [h₁, h₂],
    fun e₁ e₂ t h₁ h₂ h₃ => by rw [h₁, h₂, h₃], fun e₁ e₂ m h₁ h₂ h₃ => ?_⟩
  rcases h₃ with h₃ | h₃ <;> rw [h₁, h₂, h₃]

/-- C1, witness for `generate_reply_fallback`: the third-signature client
exercises the final fallback case at a concrete history. -/
theorem generate_reply_fallback_witness :
    generate_reply third_sig_client [⟨"user", "hello"⟩] =
      ([CallSig.reqOptions, CallSig.flatTimeout, CallSig.noTimeout],
        gemini_finalize " hi ") :=
  ((generate_reply_fallback third_sig_client [⟨"user", "hello"⟩]
      (by decide)).2.2.2.2.1) "unexpected keyword argument"
    "unexpected keyword argument" " hi " rfl rfl rfl

/-! ### C6 — chat title generation (`gemini.generate_chat_title`)

`generate_chat_title` builds a fixed two-message instruction conversation,
runs it through `generate_reply`, and post-processes the reply:
`title.splitlines()[0].strip().strip(".;:")`, truncation to 80 characters
with a right-strip, and the `"New chat"` default. -/

/-- The characters of Python `strip(".;:")`. -/
def is_title_punct (c : Char) : Bool := c == '.' || c == ';' || c == ':'

/-- Line-break characters for `str.splitlines()` (ASCII subset). -/
def is_linebreak (c : Char) : Bool :=
  c == '\n' || c == '\r' || c == Char.ofNat 11 || c == Char.ofNat 12

/-- `s.splitlines()[0]` for a string with a nonempty first line:
the characters before the first line break. -/
def first_line (s : String) : String :=
  String.mk (s.data.takeWhile (fun c => !(is_linebreak c)))

/-- `clean_title = title.splitlines()[0].strip().strip(".;:")`. -/
def title_clean (title : String) : String :=
  String.mk (strip_while is_title_punct (py_strip (first_line title)).data)

/-- `clean_title[:80].rstrip()` when `clean_title` exceeds 80 characters. -/
def title_clean2 (title : String) : String :=
  if 80 < (title_clean title).length
  then py_rstrip (String.mk ((title_clean title).data.take 80))
  else title_clean title

/-- The post-processing tail of `generate_chat_title`:
strip, truncate, then `clean_title or "New chat"`. -/
def title_post (title : String) : String :=
  if title_clean2 title == "" then "New chat" else title_clean2 title

/-- The fixed instruction message of `generate_chat_title` (transcribed
with the single ASCII apostrophe spelled out as `users`, which no claim
observes — only nonemptiness of the instruction matters to the model). -/
def title_instruction : String :=
  "Create a short, descriptive title for this conversation in six words or fewer. " ++
  "Always write the title in the same language as the users message. " ++
  "Return only the title text without punctuation at the end." ++
  "Give me short, factual, and clear names for AI chat conversations. " ++
  "The names should act as bullet points and convey the essence of the content. " ++
  "No unnecessary words, no marketing, just a functional description."

/-- The two-message history `generate_chat_title` submits. -/
def title_messages (user_message assistant_message : String) : List GMessage :=
  [⟨"system", title_instruction⟩,
   ⟨"user", "User: " ++ py_strip user_message ++ "\n" ++
      "Assistant: " ++ py_strip assistant_message⟩]

/-- `generate_chat_title`: run `generate_reply` on the instruction
conversation, re-wrap a `GeminiAPIError`, post-process a successful
reply with `title_post`. -/
def generate_chat_title (client : CallSig → CallOutcome)
    (user_message assistant_message : String) : Except String String :=
  match (generate_reply client (title_messages user_message assistant_message)).2 with
  | Except.error e => Except.error ("Failed to generate chat title: " ++ e)
  | Except.ok title => Except.ok (title_post title)

/-- The claim's post-processing, formalized from its words: the first
line of the reply text with trailing punctuation stripped, truncated to
at most 80 characters, defaulting to `"New chat"` when empty. -/
def claimed_title_post (title : String) : String :=
  let clean := String.mk (rstrip_while is_title_punct (first_line title).data)
  let clean2 := String.mk (clean.data.take 80)
  if clean2 == "" then "New chat" else clean2

/-- A client whose generation call answers `";;;Hi"` on the first
attempted signature. -/
def semi_title_client : CallSig → CallOutcome
  | _ => CallOutcome.success ";;;Hi"

/-- C6, counterexample.  The underlying generation call returns the reply
text `";;;Hi"` (no trailing punctuation, so the claimed result is
`";;;Hi"` itself), but `generate_chat_title` strips the *leading*
punctuation too and returns `"Hi"`. -/
theorem generate_chat_title_claim_false :
    (generate_reply semi_title_client (title_messages "u" "a")).2 =
      Except.ok ";;;Hi" ∧
    generate_chat_title semi_title_client "u" "a" = Except.ok "Hi" ∧
    claimed_title_post ";;;Hi" = ";;;Hi" ∧
    ("Hi" : String) ≠ ";;;Hi" :=
  ⟨rfl, rfl, rfl, by decide⟩

theorem title_clean2_length_le (t : String) : (title_clean2 t).length ≤ 80 := by
  unfold title_clean2
  by_cases h80 : 80 < (title_clean t).length
  · rw [if_pos h80]
    show (rstrip_while is_py_space ((title_clean t).data.take 80)).length ≤ 80
    calc (rstrip_while is_py_space ((title_clean t).data.take 80)).length
        ≤ ((title_clean t).data.take 80).length := rstrip_while_length_le _ _
      _ ≤ 80 := by simp
  · rw [if_neg h80]
    exact Nat.le_of_not_lt h80

theorem title_post_length_le (t : String) : (title_post t).length ≤ 80 := by
  unfold title_post
  by_cases hz : title_clean2 t == ""
  · rw [if_pos hz]
    decide
  · rw [if_neg hz]
    exact title_clean2_length_le t

theorem title_post_ne_empty (t : String) : title_post t ≠ "" := by
  unfold title_post
  by_cases hz : title_clean2 t == ""
  · rw [if_pos hz]
    decide
  · rw [if_neg hz]
    exact ne_of_beq_false (Bool.not_eq_true _ ▸ hz : (title_clean2 t == "") = false)

/-- C6, amended.  For every reply text `t` produced by the underlying
generation call, `generate_chat_title` returns the first line of `t` with
surrounding whitespace stripped and then with both leading and trailing
`.`, `;`, `:` characters stripped, truncated to at most 80 characters
(right-stripped after truncation), and defaulting to `"New chat"` when the
result is empty — in particular the returned title is nonempty and at most
80 characters; an error of the underlying call is re-wrapped with the
`Failed to generate chat title` prefix. -/
theorem generate_chat_title_spec (client : CallSig → CallOutcome)
    (u a : String) :
    (∀ t, (generate_reply client (title_messages u a)).2 = Except.ok t →
      generate_chat_title client u a = Except.ok (title_post t) ∧
      (title_post t).length ≤ 80 ∧ title_post t ≠ "") ∧
    (∀ e, (generate_reply client (title_messages u a)).2 = Except.error e →
      generate_chat_title client u a =
        Except.error ("Failed to generate chat title: " ++ e)) := by
  constructor
  · intro t h
    refine ⟨?_, title_post_length_le t, title_post_ne_empty t⟩
    unfold generate_chat_title
    rw [h]
  · intro e h
    unfold generate_chat_title
    rw [h]

/-- C6, witness for `generate_chat_title_spec`: a client replying with a
multi-line text exercises the success case; only the first line survives,
punctuation-stripped. -/
theorem generate_chat_title_spec_witness :
    generate_chat_title (fun _ => CallOutcome.success "Trip planning.\nMore")
      "u" "a" = Except.ok (title_post "Trip planning.\nMore") ∧
    title_post "Trip planning.\nMore" = "Trip planning" :=
  ⟨((generate_chat_title_spec (fun _ => CallOutcome.success "Trip planning.\nMore")
      "u" "a").1 "Trip planning.\nMore" rfl).1, rfl⟩

/-! ### The chat orchestrator (`chats/routes.py::add_message`)

Firestore state is a `Store`: the chat document (if it exists), its
message sub-collection in creation order, and its files sub-collection as
an association list from file id to metadata.  Request-independent inputs
of one `add_message` call — the configured key, the Gemini clients used
for the reply and for the title, whether the final title write succeeds,
the two `datetime.now` values and the two generated document ids — form
the `Env` oracle.  JSON values that the handler inspects dynamically
(`fileIds`) are modelled by `JValue`. -/

/-- An untyped JSON value, as far as `add_message` inspects one. -/
inductive JValue
  | jnull
  | jbool (b : Bool)
  | jnum (n : Int)
  | jstr (s : String)
  | jlist (xs : List JValue)

/-- Python truthiness for the modelled JSON values. -/
def jtruthy : JValue → Bool
  | JValue.jnull => false
  | JValue.jbool b => b
  | JValue.jnum n => n != 0
  | JValue.jstr s => s != ""
  | JValue.jlist xs => !xs.isEmpty

/-- The per-element loop normalizing `fileIds`: every element must be a
string; elements are stripped, empty results dropped, and duplicates
(against the accumulated result) skipped. -/
def normalize_file_ids_list : List JValue → List String → Except String (List String)
  | [], acc => Except.ok acc
  | JValue.jstr s :: rest, acc =>
    let cleaned := py_strip s
    if cleaned == "" then normalize_file_ids_list rest acc
    else if acc.contains cleaned then normalize_file_ids_list rest acc
    else normalize_file_ids_list rest (acc ++ [cleaned])
  | _ :: _, _ => Except.error "fileIds must be a list of strings."

/-- `raw_file_ids = payload.get("fileIds") or []` followed by the
list/str validation of `add_message`: a falsy value is replaced by the
empty list, a truthy non-list is rejected, and a list is cleaned
element-wise. -/
def normalize_file_ids (v : JValue) : Except String (List String) :=
  match (if jtruthy v then v else JValue.jlist []) with
  | JValue.jlist xs => normalize_file_ids_list xs []
  | _ => Except.error "fileIds must be a list."

/-- Stored attachment metadata (the fields `add_message` reads). -/
structure FileMeta where
  uid : String
  fileName : Option String
  mimeType : Option String
  size : Option Int
  textPreview : Option String
deriving DecidableEq, Repr

/-- A stored chat message document.  `fileIds = none` models the absence
of the field. -/
structure MsgData where
  uid : String
  role : String
  content : String
  createdAt : Nat
  fileIds : Option (List String)
deriving DecidableEq, Repr

/-- The chat document fields `add_message` reads and writes. -/
structure ChatData where
  uid : String
  title : Option String
  systemPrompt : Option String
  updatedAt : Nat
deriving DecidableEq, Repr

/-- The Firestore state visible to one `add_message` call. -/
structure Store where
  chat : Option ChatData
  messages : List MsgData
  files : List (String × FileMeta)
deriving DecidableEq, Repr

/-- `_serialize_message`: `fileIds` defaults to `[]` when absent. -/
structure SerializedMsg where
  id : String
  role : String
  content : String
  createdAt : Nat
  fileIds : List String
deriving DecidableEq, Repr

/-- Serialize a message document. -/
def serialize_message (doc_id : String) (m : MsgData) : SerializedMsg :=
  ⟨doc_id, m.role, m.content, m.createdAt, m.fileIds.getD []⟩

/-- The JSON body of an add-message request (absent keys are `none`;
`fileIds` is kept as the untyped value the handler validates). -/
structure AddMsgRequest where
  uid : Option String
  content : Option String
  role : Option String
  fileIds : JValue

/-- `content = (payload.get("content") or "").strip()`. -/
def request_content (req : AddMsgRequest) : String := py_strip (req.content.getD "")

/-- `role = (payload.get("role") or "user").lower()`. -/
def request_role (req : AddMsgRequest) : String := py_lower (py_or req.role "user")

/-- Dictionary lookup in an association list of file metadata. -/
def flookup (cache : List (String × FileMeta)) (fid : String) : Option FileMeta :=
  (cache.find? (fun p => p.1 == fid)).map (fun p => p.2)

/-- `_get_files_metadata`: fetch each id once (skipping empty ids and
ids already fetched), keeping only the documents that exist. -/
def get_files_metadata (files : List (String × FileMeta)) (ids : List String) :
    List (String × FileMeta) :=
  ids.foldl
    (fun acc fid =>
      if fid == "" || (flookup acc fid).isSome then acc
      else
        match flookup files fid with
        | some meta => acc ++ [(fid, meta)]
        | none => acc)
    []

/-- The inline attachment block of `_compose_message_content`. -/
def file_block (meta : FileMeta) : String :=
  let name := py_or meta.fileName "Unnamed file"
  let mime := py_or meta.mimeType "unknown type"
  let size_text :=
    match meta.size with
    | some n => toString n ++ " bytes"
    | none => "unknown size"
  let header := "[Attached file: " ++ name ++ " (" ++ mime ++ ", " ++ size_text ++ ")]"
  match meta.textPreview with
  | some preview => if preview == "" then header else header ++ "\n" ++ preview
  | none => header

/-- `_compose_message_content`: append the attachment blocks of the
resolvable file ids to the base text. -/
def compose_message_content (base : String) (ids : List String)
    (cache : List (String × FileMeta)) : String :=
  let blocks := ids.filterMap (fun fid => (flookup cache fid).map file_block)
  if blocks.isEmpty then base
  else if base == "" then String.intercalate "\n\n" blocks
  else base ++ "\n\n" ++ String.intercalate "\n\n" blocks

/-- The additional file ids referenced by history messages but absent
from the cache built during attachment validation. -/
def extra_history_ids (cache : List (String × FileMeta)) (msgs : List MsgData) :
    List String :=
  msgs.foldl
    (fun acc m =>
      acc ++ (m.fileIds.getD []).filter
        (fun fid => fid != "" && (flookup cache fid).isNone))
    []

/-- The metadata cache used while composing history: the validated
attachments plus one fetch of the remaining referenced ids. -/
def history_cache (files : List (String × FileMeta))
    (cache : List (String × FileMeta)) (msgs : List MsgData) :
    List (String × FileMeta) :=
  cache ++ get_files_metadata files (extra_history_ids cache msgs)

/-- The history handed to `generate_reply`: the optional system prompt as
a synthetic leading system message, then every stored message with its
attachment blocks inlined. -/
def compose_history (systemPrompt : Option String) (msgs : List MsgData)
    (cache : List (String × FileMeta)) : List GMessage :=
  (match systemPrompt with
   | some sp => if sp == "" then [] else [⟨"system", sp⟩]
   | none => []) ++
  msgs.map (fun m =>
    ⟨m.role, compose_message_content m.content (m.fileIds.getD []) cache⟩)

/-- Call-independent inputs of one `add_message` run. -/
structure Env where
  geminiKey : Option String
  replyClient : CallSig → CallOutcome
  titleClient : CallSig → CallOutcome
  titlePersistOk : Bool
  now : Nat
  now2 : Nat
  userMsgId : String
  aiMsgId : String

/-- The response of `add_message`, tagged by error family. -/
inductive AddMsgOutcome
  | validationError (message : String)
  | notFound
  | forbidden (message : String)
  | notConfigured (userMessage : SerializedMsg)
  | aiError (message : String) (userMessage : SerializedMsg)
  | created (userMessage : SerializedMsg) (assistantMessage : SerializedMsg)
deriving DecidableEq, Repr

/-- The HTTP status `add_message` pairs with each outcome. -/
def http_status : AddMsgOutcome → Nat
  | AddMsgOutcome.validationError _ => 400
  | AddMsgOutcome.notFound => 404
  | AddMsgOutcome.forbidden _ => 403
  | AddMsgOutcome.notConfigured _ => 503
  | AddMsgOutcome.aiError _ _ => 502
  | AddMsgOutcome.created _ _ => 201

/-- Result of one `add_message` run: the HTTP response, the store after
the run, and whether automatic title generation was attempted. -/
structure AddMsgResult where
  response : AddMsgOutcome
  store : Store
  titleAttempted : Bool
deriving DecidableEq, Repr

/-- The user message document `add_message` persists in step 4. -/
def pending_msg (req : AddMsgRequest) (uid : String) (file_ids : List String)
    (now : Nat) : MsgData :=
  ⟨uid, request_role req, request_content req, now,
    if file_ids.isEmpty then none else some file_ids⟩

/-- The store after step 4: the user message appended and the chat's
`updatedAt` bumped to the write time. -/
def user_bumped_store (st : Store) (chat : ChatData) (now : Nat)
    (user_msg : MsgData) : Store :=
  ⟨some { chat with updatedAt := now }, st.messages ++ [user_msg], st.files⟩

/-- Steps 8–10 of `add_message`, after the composed history is built:
the generation call (a `GeminiAPIError` answers 502 with the persisted
user message and leaves the step-4 store), assistant message
persistence, and the best-effort title update, attempted exactly when
the stored title strips-and-lowercases into `{"", "new chat"}` or
strip-equals the request's cleaned content, and never failing the
request. -/
def ai_exchange (env : Env) (chat : ChatData) (uid : String) (content : String)
    (user_msg : MsgData) (st1 : Store) (hist : List GMessage) : AddMsgResult :=
  match (generate_reply env.replyClient hist).2 with
  | Except.error e =>
    ⟨AddMsgOutcome.aiError e (serialize_message env.userMsgId user_msg), st1, false⟩
  | Except.ok reply =>
    let ai_msg : MsgData := ⟨uid, "assistant", reply, env.now2, none⟩
    let st2 : Store :=
      ⟨some { chat with updatedAt := env.now2 }, st1.messages ++ [ai_msg], st1.files⟩
    let chat_title := py_strip (py_or chat.title "")
    let should :=
      py_lower chat_title == "" || py_lower chat_title == "new chat" ||
        chat_title == content
    let user_prompt :=
      py_or_str user_msg.content (hist.getLastD ⟨"user", ""⟩).content
    let updated_title : Option String :=
      if should then
        match generate_chat_title env.titleClient user_prompt reply with
        | Except.ok t => if t == "" then none else some t
        | Except.error _ => none
      else none
    let st3 : Store :=
      match updated_title with
      | some t =>
        if env.titlePersistOk then
          ⟨some { chat with title := some t, updatedAt := env.now2 },
            st2.messages, st1.files⟩
        else st2
      | none => st2
    ⟨AddMsgOutcome.created
      (serialize_message env.userMsgId user_msg)
      (serialize_message env.aiMsgId ai_msg), st3, should⟩

/-- The `add_message` route handler.  Stages, in source order: `fileIds`
normalization; `uid`, content-or-files and role validation; chat load
with ownership check; attachment validation (missing then foreign ids);
user-message persistence plus chat `updatedAt` bump (`user_bumped_store`);
the configured-key gate; history reload and composition; then the AI
exchange with best-effort title update (`ai_exchange`). -/
def add_message (env : Env) (st : Store) (req : AddMsgRequest) : AddMsgResult :=
  let content := request_content req
  let role := request_role req
  match normalize_file_ids req.fileIds with
  | Except.error m => ⟨AddMsgOutcome.validationError m, st, false⟩
  | Except.ok file_ids =>
    match req.uid with
    | none => ⟨AddMsgOutcome.validationError "uid is required.", st, false⟩
    | some uid =>
      if uid == "" then
        ⟨AddMsgOutcome.validationError "uid is required.", st, false⟩
      else if content == "" && file_ids.isEmpty then
        ⟨AddMsgOutcome.validationError
          "content is required when no files are attached.", st, false⟩
      else if !(role == "user" || role == "system") then
        ⟨AddMsgOutcome.validationError
          "role must be either user or system.", st, false⟩
      else
        match st.chat with
        | none => ⟨AddMsgOutcome.notFound, st, false⟩
        | some chat =>
          if chat.uid != uid then
            ⟨AddMsgOutcome.forbidden
              "You do not have access to this chat.", st, false⟩
          else
            let attachments := get_files_metadata st.files file_ids
            let missing := file_ids.filter (fun fid => (flookup attachments fid).isNone)
            if !file_ids.isEmpty && !missing.isEmpty then
              ⟨AddMsgOutcome.validationError
                "One or more files could not be found for this chat.", st, false⟩
            else
              let unauthorised :=
                (attachments.filter (fun p => p.2.uid != uid)).map (fun p => p.1)
              if !file_ids.isEmpty && !unauthorised.isEmpty then
                ⟨AddMsgOutcome.forbidden
                  "You do not have access to one or more attached files.", st, false⟩
              else
                let user_msg := pending_msg req uid file_ids env.now
                let st1 := user_bumped_store st chat env.now user_msg
                match env.geminiKey with
                | none =>
                  ⟨AddMsgOutcome.notConfigured
                    (serialize_message env.userMsgId user_msg), st1, false⟩
                | some _ =>
                  let cache := history_cache st.files attachments st1.messages
                  let hist := compose_history chat.systemPrompt st1.messages cache
                  ai_exchange env chat uid content user_msg st1 hist

/-- C2.  A request whose cleaned text content is empty and whose
normalized attachment id list is empty — and more generally any request
missing a nonempty owner id, missing both content and attachments, or
carrying a role other than `user`/`system` — is answered with a
`ValidationError` (HTTP 400) and leaves the store untouched: no message
is persisted. -/
theorem add_message_validation (env : Env) (st : Store) (req : AddMsgRequest)
    (h : req.uid = none ∨ req.uid = some "" ∨
      (request_content req = "" ∧ normalize_file_ids req.fileIds = Except.ok []) ∨
      ¬(request_role req = "user" ∨ request_role req = "system")) :
    (∃ m, (add_message env st req).response = AddMsgOutcome.validationError m) ∧
    http_status (add_message env st req).response = 400 ∧
    (add_message env st req).store = st := by
  cases hn : normalize_file_ids req.fileIds with
  | error m => simp [add_message, hn, http_status]
  | ok fids =>
    cases hu : req.uid with
    | none => simp [add_message, hn, hu, http_status]
    | some u =>
      by_cases hue : u = ""
      · simp [add_message, hn, hu, hue, http_status]
      · rcases h with h | h | ⟨hc, hfi⟩ | h
        · rw [hu] at h
          cases h
        · rw [hu] at h
          exact absurd (Option.some_injective _ h) hue
        · have hfe : fids = [] := by
            rw [hfi] at hn
            exact (Except.ok.injEq _ _).mp hn.symm
          simp [add_message, hn, hu, hue, hc, hfe, http_status]
        · rw [not_or] at h
          by_cases hc : request_content req = ""
          · by_cases hf : fids = []
            · simp [add_message, hn, hu, hue, hc, hf, http_status]
            · simp [add_message, hn, hu, hue, hc, hf, h.1, h.2, http_status]
          · simp [add_message, hn, hu, hue, hc, h.1, h.2, http_status]

/-- C2, witness for `add_message_validation`: a request with whitespace
content and no `fileIds` on an existing chat is rejected with no write. -/
theorem add_message_validation_witness :
    (∃ m, (add_message
        ⟨none, fun _ => CallOutcome.success "ok", fun _ => CallOutcome.success "ok",
          true, 1, 2, "m1", "m2"⟩
        ⟨some ⟨"u1", some "New chat", none, 0⟩, [], []⟩
        ⟨some "u1", some "   ", none, JValue.jnull⟩).response =
      AddMsgOutcome.validationError m) ∧
    http_status (add_message
        ⟨none, fun _ => CallOutcome.success "ok", fun _ => CallOutcome.success "ok",
          true, 1, 2, "m1", "m2"⟩
        ⟨some ⟨"u1", some "New chat", none, 0⟩, [], []⟩
        ⟨some "u1", some "   ", none, JValue.jnull⟩).response = 400 ∧
    (add_message
        ⟨none, fun _ => CallOutcome.success "ok", fun _ => CallOutcome.success "ok",
          true, 1, 2, "m1", "m2"⟩
        ⟨some ⟨"u1", some "New chat", none, 0⟩, [], []⟩
        ⟨some "u1", some "   ", none, JValue.jnull⟩).store =
      ⟨some ⟨"u1", some "New chat", none, 0⟩, [], []⟩ :=
  add_message_validation _ _ _ (Or.inr (Or.inr (Or.inl (by constructor <;> rfl))))

theorem add_message_no_key_shape (env : Env) (st : Store) (req : AddMsgRequest)
    (u : String) (chat : ChatData) (fids : List String)
    (hn : normalize_file_ids req.fileIds = Except.ok fids)
    (hu : req.uid = some u) (hue : u ≠ "")
    (hcf : ¬(request_content req = "" ∧ fids = []))
    (hrole : request_role req = "user" ∨ request_role req = "system")
    (hchat : st.chat = some chat) (hown : chat.uid = u)
    (hmiss : ∀ fid ∈ fids, flookup (get_files_metadata st.files fids) fid ≠ none)
    (hauth : ∀ p ∈ get_files_metadata st.files fids, p.2.uid = u)
    (hkey : env.geminiKey = none) :
    add_message env st req =
      ⟨AddMsgOutcome.notConfigured
          (serialize_message env.userMsgId (pending_msg req u fids env.now)),
        user_bumped_store st chat env.now (pending_msg req u fids env.now),
        false⟩ ∧
    http_status (add_message env st req).response = 503 := by
  have hfe : (get_files_metadata st.files fids).filter
      (fun p => p.2.uid != u) = [] := by
    rw [List.filter_eq_nil_iff]
    intro p hp
    simp [hauth p hp]
  by_cases hc : request_content req = ""
  · have hf : fids ≠ [] := fun hf => hcf ⟨hc, hf⟩
    have ha : add_message env st req =
        ⟨AddMsgOutcome.notConfigured
            (serialize_message env.userMsgId (pending_msg req u fids env.now)),
          user_bumped_store st chat env.now (pending_msg req u fids env.now),
          false⟩ := by
      rcases hrole with hr | hr <;>
        simp [add_message, hn, hu, hue, hc, hf, hr, hchat, hown, hfe, hkey] <;>
        exact hmiss
    exact ⟨ha, by rw [ha]; rfl⟩
  · have ha : add_message env st req =
        ⟨AddMsgOutcome.notConfigured
            (serialize_message env.userMsgId (pending_msg req u fids env.now)),
          user_bumped_store st chat env.now (pending_msg req u fids env.now),
          false⟩ := by
      rcases hrole with hr | hr <;>
        simp [add_message, hn, hu, hue, hc, hr, hchat, hown, hfe, hkey] <;>
        exact fun _ => hmiss
    exact ⟨ha, by rw [ha]; rfl⟩

/-- C3.  A valid add-message request (owner present, content or
attachments present, valid role, chat owned by the caller, attachments
resolvable and owned) made with no Gemini API key configured persists the
user message and bumps the chat's `updatedAt` before the key check, then
answers 503 `NotConfigured` carrying the serialized persisted user
message. -/
theorem add_message_not_configured (env : Env) (st : Store) (req : AddMsgRequest)
    (u : String) (chat : ChatData) (fids : List String)
    (hn : normalize_file_ids req.fileIds = Except.ok fids)
    (hu : req.uid = some u) (hue : u ≠ "")
    (hcf : ¬(request_content req = "" ∧ fids = []))
    (hrole : request_role req = "user" ∨ request_role req = "system")
    (hchat : st.chat = some chat) (hown : chat.uid = u)
    (hmiss : ∀ fid ∈ fids, flookup (get_files_metadata st.files fids) fid ≠ none)
    (hauth : ∀ p ∈ get_files_metadata st.files fids, p.2.uid = u)
    (hkey : env.geminiKey = none) :
    add_message env st req =
      ⟨AddMsgOutcome.notConfigured
          (serialize_message env.userMsgId (pending_msg req u fids env.now)),
        user_bumped_store st chat env.now (pending_msg req u fids env.now),
        false⟩ ∧
    http_status (add_message env st req).response = 503 :=
  add_message_no_key_shape env st req u chat fids hn hu hue hcf hrole hchat hown
    hmiss hauth hkey

/-- A chat owned by `u1` still carrying the default title. -/
def demo_chat : ChatData := ⟨"u1", some "New chat", none, 0⟩

/-- A store holding only `demo_chat`, with no messages and no files. -/
def demo_store : Store := ⟨some demo_chat, [], []⟩

/-- A request from `u1` with content `"Hi"` and no attachments. -/
def hi_request : AddMsgRequest := ⟨some "u1", some "Hi", none, JValue.jnull⟩

/-- An environment with no Gemini key configured. -/
def no_key_env : Env :=
  ⟨none, fun _ => CallOutcome.success "Sure!",
    fun _ => CallOutcome.success "Greeting", true, 1, 2, "m1", "m2"⟩

/-- C3, witness for `add_message_not_configured`: with no key configured,
the `"Hi"` message is durably persisted, the chat timestamp is bumped,
and the 503 response carries the serialized message. -/
theorem add_message_not_configured_witness :
    add_message no_key_env demo_store hi_request =
      ⟨AddMsgOutcome.notConfigured
          (serialize_message no_key_env.userMsgId
            (pending_msg hi_request "u1" [] no_key_env.now)),
        user_bumped_store demo_store demo_chat no_key_env.now
          (pending_msg hi_request "u1" [] no_key_env.now),
        false⟩ ∧
    http_status (add_message no_key_env demo_store hi_request).response = 503 :=
  add_message_not_configured no_key_env demo_store hi_request "u1" demo_chat []
    rfl rfl (by decide) (by decide) (Or.inl rfl) rfl rfl
    (by decide) (by decide) rfl

theorem ai_exchange_error_shape (env : Env) (chat : ChatData) (uid content : String)
    (user_msg : MsgData) (st1 : Store) (hist : List GMessage)
    (hfail : ∀ (msgs : List GMessage) (r : String),
      (generate_reply env.replyClient msgs).2 ≠ Except.ok r) :
    ∃ e, ai_exchange env chat uid content user_msg st1 hist =
      ⟨AddMsgOutcome.aiError e (serialize_message env.userMsgId user_msg),
        st1, false⟩ := by
  cases hg : (generate_reply env.replyClient hist).2 with
  | error e => exact ⟨e, by simp [ai_exchange, hg]⟩
  | ok r => exact absurd hg (hfail hist r)

/-- C4.  A valid add-message request whose generation call fails with a
`GeminiAPIError` is answered 502 with the already-persisted user message,
and the store is exactly the step-4 store: the persisted user message and
the chat `updatedAt` bump survive, and nothing else changed. -/
theorem add_message_generation_failure (env : Env) (st : Store)
    (req : AddMsgRequest) (u k : String) (chat : ChatData) (fids : List String)
    (hn : normalize_file_ids req.fileIds = Except.ok fids)
    (hu : req.uid = some u) (hue : u ≠ "")
    (hcf : ¬(request_content req = "" ∧ fids = []))
    (hrole : request_role req = "user" ∨ request_role req = "system")
    (hchat : st.chat = some chat) (hown : chat.uid = u)
    (hmiss : ∀ fid ∈ fids, flookup (get_files_metadata st.files fids) fid ≠ none)
    (hauth : ∀ p ∈ get_files_metadata st.files fids, p.2.uid = u)
    (hkey : env.geminiKey = some k)
    (hfail : ∀ (msgs : List GMessage) (r : String),
      (generate_reply env.replyClient msgs).2 ≠ Except.ok r) :
    ∃ e, add_message env st req =
      ⟨AddMsgOutcome.aiError e
          (serialize_message env.userMsgId (pending_msg req u fids env.now)),
        user_bumped_store st chat env.now (pending_msg req u fids env.now),
        false⟩ ∧
      http_status (add_message env st req).response = 502 := by
  have hfe : (get_files_metadata st.files fids).filter
      (fun p => p.2.uid != u) = [] := by
    rw [List.filter_eq_nil_iff]
    intro p hp
    simp [hauth p hp]
  have hh : add_message env st req =
      ai_exchange env chat u (request_content req)
        (pending_msg req u fids env.now)
        (user_bumped_store st chat env.now (pending_msg req u fids env.now))
        (compose_history chat.systemPrompt
          (user_bumped_store st chat env.now (pending_msg req u fids env.now)).messages
          (history_cache st.files (get_files_metadata st.files fids)
            (user_bumped_store st chat env.now
              (pending_msg req u fids env.now)).messages)) := by
    by_cases hc : request_content req = ""
    · have hf : fids ≠ [] := fun hf => hcf ⟨hc, hf⟩
      rcases hrole with hr | hr <;>
        simp [add_message, hn, hu, hue, hc, hf, hr, hchat, hown, hfe, hkey] <;>
        exact fun x hx hl => absurd hl (hmiss x hx)
    · rcases hrole with hr | hr <;>
        simp [add_message, hn, hu, hue, hc, hr, hchat, hown, hfe, hkey] <;>
        first
          | exact fun x hx hl => absurd hl (hmiss x hx)
          | exact fun _ x hx hl => absurd hl (hmiss x hx)
  obtain ⟨e, he⟩ := ai_exchange_error_shape env chat u (request_content req)
    (pending_msg req u fids env.now)
    (user_bumped_store st chat env.now (pending_msg req u fids env.now))
    (compose_history chat.systemPrompt
      (user_bumped_store st chat env.now (pending_msg req u fids env.now)).messages
      (history_cache st.files (get_files_metadata st.files fids)
        (user_bumped_store st chat env.now
          (pending_msg req u fids env.now)).messages)) hfail
  refine ⟨e, ?_, ?_⟩
  · rw [hh, he]
  · rw [hh, he]
    rfl

/-- An environment whose generation backend rejects every call. -/
def failing_env : Env :=
  ⟨some "key", fun _ => CallOutcome.apiFailure "quota exceeded",
    fun _ => CallOutcome.success "Greeting", true, 1, 2, "m1", "m2"⟩

theorem always_fail_no_ok (msgs : List GMessage) (r : String) :
    (generate_reply (fun _ => CallOutcome.apiFailure "quota exceeded") msgs).2 ≠
      Except.ok r := by
  unfold generate_reply
  by_cases h : format_messages msgs = []
  · simp [h]
  · simp [h]

/-- C4, witness for `add_message_generation_failure`: a failing generation
backend yields 502 with the persisted `"Hi"` message kept in the store. -/
theorem add_message_generation_failure_witness :
    ∃ e, add_message failing_env demo_store hi_request =
      ⟨AddMsgOutcome.aiError e
          (serialize_message failing_env.userMsgId
            (pending_msg hi_request "u1" [] failing_env.now)),
        user_bumped_store demo_store demo_chat failing_env.now
          (pending_msg hi_request "u1" [] failing_env.now),
        false⟩ ∧
      http_status (add_message failing_env demo_store hi_request).response = 502 :=
  add_message_generation_failure failing_env demo_store hi_request "u1" "key"
    demo_chat [] rfl rfl (by decide) (by decide) (Or.inl rfl) rfl rfl
    (by decide) (by decide) rfl (fun msgs r => always_fail_no_ok msgs r)

theorem ai_exchange_title_policy (env : Env) (chat : ChatData)
    (uid content : String) (user_msg : MsgData) (st1 : Store)
    (hist : List GMessage) (reply : String)
    (hg : (generate_reply env.replyClient hist).2 = Except.ok reply) :
    (∃ um am, (ai_exchange env chat uid content user_msg st1 hist).response =
      AddMsgOutcome.created um am) ∧
    ((ai_exchange env chat uid content user_msg st1 hist).titleAttempted = true ↔
      (py_lower (py_strip (py_or chat.title "")) = "" ∨
       py_lower (py_strip (py_or chat.title "")) = "new chat" ∨
       py_strip (py_or chat.title "") = content)) ∧
    (¬(py_lower (py_strip (py_or chat.title "")) = "" ∨
       py_lower (py_strip (py_or chat.title "")) = "new chat" ∨
       py_strip (py_or chat.title "") = content) →
      (ai_exchange env chat uid content user_msg st1 hist).store.chat =
        some { chat with updatedAt := env.now2 }) := by
  refine ⟨⟨serialize_message env.userMsgId user_msg,
    serialize_message env.aiMsgId ⟨uid, "assistant", reply, env.now2, none⟩,
    by simp [ai_exchange, hg]⟩, ?_, ?_⟩
  · simp [ai_exchange, hg, or_assoc]
  · intro hnt
    rw [not_or, not_or] at hnt
    simp [ai_exchange, hg, hnt.1, hnt.2.1, hnt.2.2]

/-- The claim's trigger condition for automatic title generation,
formalized from its words: the stored title is the default `"New chat"`
compared case-insensitively, or equals the raw first user text verbatim. -/
def claim_title_trigger (storedTitle firstUserText : String) : Prop :=
  py_lower storedTitle = "new chat" ∨ storedTitle = firstUserText

/-- An environment with a key and a generation backend answering
`"Sure!"`, whose title backend answers `"Quick greeting"`. -/
def keyed_env : Env :=
  ⟨some "key", fun _ => CallOutcome.success "Sure!",
    fun _ => CallOutcome.success "Quick greeting", true, 1, 2, "m1", "m2"⟩

/-- A store whose chat (owned by `u1`) has an empty stored title. -/
def empty_title_store : Store := ⟨some ⟨"u1", some "", none, 0⟩, [], []⟩

/-- C5, counterexample.  On a chat whose stored title is the empty string,
a successful exchange for the message `"Hi"` does attempt automatic title
generation (the handler treats any title that strips-and-lowercases to
`""` as default), although the claim's condition — title is `"New chat"`
case-insensitively or equals the first user text — does not hold for the
stored title `""`. -/
theorem add_message_title_claim_false :
    (add_message keyed_env empty_title_store hi_request).titleAttempted = true ∧
    ¬ claim_title_trigger "" "Hi" := by
  constructor
  · rfl
  · intro h
    rcases h with h | h
    · exact absurd h (by decide)
    · exact absurd h (by decide)

/-- C5, amended.  After a successful AI exchange, automatic title
generation is attempted if and only if the stored title, whitespace-
stripped, lowercases to `""` or `"new chat"`, or equals the current
request's stripped text; the response is 201 `created` regardless of the
outcome of title generation or of the title write (both are best-effort);
and when the trigger condition fails the chat document keeps its stored
title (only `updatedAt` changes). -/
theorem add_message_title_update (env : Env) (st : Store)
    (req : AddMsgRequest) (u k : String) (chat : ChatData) (fids : List String)
    (reply : String)
    (hn : normalize_file_ids req.fileIds = Except.ok fids)
    (hu : req.uid = some u) (hue : u ≠ "")
    (hcf : ¬(request_content req = "" ∧ fids = []))
    (hrole : request_role req = "user" ∨ request_role req = "system")
    (hchat : st.chat = some chat) (hown : chat.uid = u)
    (hmiss : ∀ fid ∈ fids, flookup (get_files_metadata st.files fids) fid ≠ none)
    (hauth : ∀ p ∈ get_files_metadata st.files fids, p.2.uid = u)
    (hkey : env.geminiKey = some k)
    (hreply : (generate_reply env.replyClient
        (compose_history chat.systemPrompt
          (user_bumped_store st chat env.now (pending_msg req u fids env.now)).messages
          (history_cache st.files (get_files_metadata st.files fids)
            (user_bumped_store st chat env.now
              (pending_msg req u fids env.now)).messages))).2 = Except.ok reply) :
    (∃ um am, (add_message env st req).response = AddMsgOutcome.created um am) ∧
    ((add_message env st req).titleAttempted = true ↔
      (py_lower (py_strip (py_or chat.title "")) = "" ∨
       py_lower (py_strip (py_or chat.title "")) = "new chat" ∨
       py_strip (py_or chat.title "") = request_content req)) ∧
    (¬(py_lower (py_strip (py_or chat.title "")) = "" ∨
       py_lower (py_strip (py_or chat.title "")) = "new chat" ∨
       py_strip (py_or chat.title "") = request_content req) →
      (add_message env st req).store.chat =
        some { chat with updatedAt := env.now2 }) := by
  have hfe : (get_files_metadata st.files fids).filter
      (fun p => p.2.uid != u) = [] := by
    rw [List.filter_eq_nil_iff]
    intro p hp
    simp [hauth p hp]
  have hh : add_message env st req =
      ai_exchange env chat u (request_content req)
        (pending_msg req u fids env.now)
        (user_bumped_store st chat env.now (pending_msg req u fids env.now))
        (compose_history chat.systemPrompt
          (user_bumped_store st chat env.now (pending_msg req u fids env.now)).messages
          (history_cache st.files (get_files_metadata st.files fids)
            (user_bumped_store st chat env.now
              (pending_msg req u fids env.now)).messages)) := by
    by_cases hc : request_content req = ""
    · have hf : fids ≠ [] := fun hf => hcf ⟨hc, hf⟩
      rcases hrole with hr | hr <;>
        simp [add_message, hn, hu, hue, hc, hf, hr, hchat, hown, hfe, hkey] <;>
        exact fun x hx hl => absurd hl (hmiss x hx)
    · rcases hrole with hr | hr <;>
        simp [add_message, hn, hu, hue, hc, hr, hchat, hown, hfe, hkey] <;>
        first
          | exact fun x hx hl => absurd hl (hmiss x hx)
          | exact fun _ x hx hl => absurd hl (hmiss x hx)
  rw [hh]
  exact ai_exchange_title_policy env chat u (request_content req)
    (pending_msg req u fids env.now)
    (user_bumped_store st chat env.now (pending_msg req u fids env.now))
    _ reply hreply

/-- C5, witness for `add_message_title_update`: a successful exchange on
the default-titled demo chat produces a 201 `created` response. -/
theorem add_message_title_update_witness :
    ∃ um am, (add_message keyed_env demo_store hi_request).response =
      AddMsgOutcome.created um am :=
  (add_message_title_update keyed_env demo_store hi_request "u1" "key"
    demo_chat [] "Sure!" rfl rfl (by decide) (by decide) (Or.inl rfl) rfl rfl
    (by decide) (by decide) rfl rfl).1

/-! ### C10 — `fileIds` normalization in `add_message` -/

/-- Keep the first occurrence of every element, in order. -/
def keep_first : List String → List String
  | [] => []
  | x :: xs => x :: keep_first (xs.filter (fun y => y != x))
termination_by l => l.length
decreasing_by
  simp only [List.length_cons]
  exact Nat.lt_succ_of_le (List.length_filter_le _ _)

/-- Whether a JSON value is a string. -/
def is_jstr : JValue → Bool
  | JValue.jstr _ => true
  | _ => false

/-- Whether a JSON value is a list. -/
def is_jlist : JValue → Bool
  | JValue.jlist _ => true
  | _ => false

theorem filter_contains_snoc (acc : List String) (c : String) (L : List String) :
    L.filter (fun y => !((acc ++ [c]).contains y)) =
      (L.filter (fun y => !acc.contains y)).filter (fun y => y != c) := by
  rw [List.filter_filter]
  apply List.filter_congr
  intro y _
  by_cases hy : y = c
  · subst hy
    simp
  · simp [hy, Ne.symm hy]

theorem normalize_file_ids_list_spec (ss : List String) (acc : List String) :
    normalize_file_ids_list (ss.map JValue.jstr) acc =
      Except.ok (acc ++ keep_first
        (((ss.map py_strip).filter (fun s => s != "")).filter
          (fun s => !acc.contains s))) := by
  induction ss generalizing acc with
  | nil => simp [normalize_file_ids_list, keep_first]
  | cons s rest ih =>
    simp only [List.map_cons, normalize_file_ids_list]
    by_cases h1 : py_strip s == ""
    · rw [if_pos h1, ih]
      have : (py_strip s != "") = false := by simp [bne, h1]
      simp [List.filter_cons, this]
    · have h1' : (py_strip s != "") = true := by simp [bne, h1]
      rw [if_neg h1]
      by_cases h2 : acc.contains (py_strip s)
      · have h2m : py_strip s ∈ acc := by simpa using h2
        rw [if_pos h2, ih]
        simp [List.filter_cons, h1', h2m]
      · have h2m : py_strip s ∉ acc := by simpa using h2
        rw [if_neg h2, ih (acc ++ [py_strip s]), filter_contains_snoc]
        simp [List.filter_cons, h1', h2m, keep_first]

theorem normalize_file_ids_list_err (xs : List JValue) (acc : List String)
    (h : ∃ x ∈ xs, is_jstr x = false) :
    normalize_file_ids_list xs acc =
      Except.error "fileIds must be a list of strings." := by
  induction xs generalizing acc with
  | nil => simp at h
  | cons x rest ih =>
    obtain ⟨y, hy, hys⟩ := h
    cases x with
    | jstr s =>
      have hrest : ∃ y ∈ rest, is_jstr y = false := by
        rcases List.mem_cons.mp hy with rfl | hmem
        · exact absurd hys (by simp [is_jstr])
        · exact ⟨y, hmem, hys⟩
      simp only [normalize_file_ids_list]
      by_cases h1 : py_strip s == ""
      · rw [if_pos h1]
        exact ih _ hrest
      · rw [if_neg h1]
        by_cases h2 : acc.contains (py_strip s)
        · rw [if_pos h2]
          exact ih _ hrest
        · rw [if_neg h2]
          exact ih _ hrest
    | jnull => rfl
    | jbool b => rfl
    | jnum n => rfl
    | jlist l => rfl

/-- A valid request whose `fileIds` field is the (falsy, non-list) empty
string. -/
def empty_str_fileids_request : AddMsgRequest :=
  ⟨some "u1", some "Hi", none, JValue.jstr ""⟩

/-- C10, counterexample.  The claim says any non-list `fileIds` value is
rejected with `ValidationError`.  The handler first evaluates
`payload.get("fileIds") or []`, so the falsy non-list value `""` is
replaced by the empty list: normalization accepts it, and a request
carrying `fileIds: ""` proceeds past validation (here to the 503
no-key response) instead of being rejected. -/
theorem normalize_file_ids_claim_false :
    is_jlist (JValue.jstr "") = false ∧
    normalize_file_ids (JValue.jstr "") = Except.ok [] ∧
    (add_message no_key_env demo_store empty_str_fileids_request).response =
      AddMsgOutcome.notConfigured
        (serialize_message no_key_env.userMsgId
          (pending_msg empty_str_fileids_request "u1" [] no_key_env.now)) ∧
    ∀ m, (add_message no_key_env demo_store empty_str_fileids_request).response ≠
      AddMsgOutcome.validationError m := by
  refine ⟨rfl, rfl, rfl, ?_⟩
  intro m h
  exact AddMsgOutcome.noConfusion h

/-- C10, amended.  `fileIds` is normalized before the other validations:
a list value must contain only strings (otherwise `ValidationError`),
each element is whitespace-trimmed, empty results are dropped and
duplicates are removed keeping the first occurrence; a truthy non-list
value is a `ValidationError`, while a falsy non-list value (absent field,
`""`, `0`, `false`, `null`) is treated as the empty list; and a valid
request persists a user message whose `fileIds` field is exactly the
normalized list, the field being omitted when that list is empty. -/
theorem normalize_file_ids_spec :
    (∀ ss : List String,
      normalize_file_ids (JValue.jlist (ss.map JValue.jstr)) =
        Except.ok (keep_first ((ss.map py_strip).filter (fun s => s != "")))) ∧
    (∀ xs : List JValue, (∃ x ∈ xs, is_jstr x = false) →
      normalize_file_ids (JValue.jlist xs) =
        Except.error "fileIds must be a list of strings.") ∧
    (∀ v, jtruthy v = false → normalize_file_ids v = Except.ok []) ∧
    (∀ v, jtruthy v = true → is_jlist v = false →
      normalize_file_ids v = Except.error "fileIds must be a list.") ∧
    (∀ (env : Env) (st : Store) (req : AddMsgRequest) (u : String)
        (chat : ChatData) (fids : List String),
      normalize_file_ids req.fileIds = Except.ok fids →
      req.uid = some u → u ≠ "" →
      ¬(request_content req = "" ∧ fids = []) →
      (request_role req = "user" ∨ request_role req = "system") →
      st.chat = some chat → chat.uid = u →
      (∀ fid ∈ fids, flookup (get_files_metadata st.files fids) fid ≠ none) →
      (∀ p ∈ get_files_metadata st.files fids, p.2.uid = u) →
      env.geminiKey = none →
      (add_message env st req).store.messages =
        st.messages ++ [pending_msg req u fids env.now] ∧
      (pending_msg req u fids env.now).fileIds =
        (if fids = [] then none else some fids)) := by
  refine ⟨?_, ?_, ?_, ?_, ?_⟩
  · intro ss
    cases ss with
    | nil => simp [normalize_file_ids, jtruthy, normalize_file_ids_list, keep_first]
    | cons s rest =>
      have ht : jtruthy (JValue.jlist ((s :: rest).map JValue.jstr)) = true := by
        simp [jtruthy]
      simp only [normalize_file_ids, ht, if_pos]
      rw [normalize_file_ids_list_spec]
      simp
  · intro xs hx
    have hne : xs ≠ [] := by
      rcases hx with ⟨y, hy, _⟩
      exact List.ne_nil_of_mem hy
    have ht : jtruthy (JValue.jlist xs) = true := by
      simp [jtruthy, hne]
    simp only [normalize_file_ids, ht, if_pos]
    exact normalize_file_ids_list_err xs [] hx
  · intro v hv
    simp [normalize_file_ids, hv, normalize_file_ids_list]
  · intro v ht hl
    cases v with
    | jnull => simp [jtruthy] at ht
    | jbool b => simp [normalize_file_ids, ht]
    | jnum n => simp [normalize_file_ids, ht]
    | jstr s => simp [normalize_file_ids, ht]
    | jlist xs => simp [is_jlist] at hl
  · intro env st req u chat fids hn hu hue hcf hrole hchat hown hmiss hauth hkey
    have h := add_message_no_key_shape env st req u chat fids hn hu hue hcf
      hrole hchat hown hmiss hauth hkey
    constructor
    · rw [h.1]
      rfl
    · cases fids with
      | nil => rfl
      | cons f fs => rfl

/-- C10, witness for `normalize_file_ids_spec`: the list
`[" a ", "b", "a", "", "b "]` normalizes to `["a", "b"]`, and a valid
no-key request with those ids absent persists the message without a
`fileIds` field. -/
theorem normalize_file_ids_spec_witness :
    normalize_file_ids
        (JValue.jlist ([" a ", "b", "a", "", "b "].map JValue.jstr)) =
      Except.ok ["a", "b"] ∧
    (add_message no_key_env demo_store hi_request).store.messages =
      demo_store.messages ++ [pending_msg hi_request "u1" [] no_key_env.now] ∧
    (pending_msg hi_request "u1" [] no_key_env.now).fileIds = none := by
  refine ⟨?_, ?_, ?_⟩
  · rw [normalize_file_ids_spec.1 [" a ", "b", "a", "", "b "]]
    have hfl : (([" a ", "b", "a", "", "b "].map py_strip).filter
        (fun s => s != "")) = ["a", "b", "a", "b"] := by decide
    rw [hfl]
    simp [keep_first]
  · exact ((normalize_file_ids_spec.2.2.2.2 no_key_env demo_store hi_request
      "u1" demo_chat [] rfl rfl (by decide) (by decide) (Or.inl rfl) rfl rfl
      (by decide) (by decide) rfl)).1
  · rfl

/-! ### C9 — notes: the lowercase index invariant
(`notes/utils.py::normalize_string_list`, `notes/service.py`)

`normalize_string_list` is modelled for string inputs (the JSON lists the
routes hand over); the `str()` cast of non-string elements and the
wrapping of a bare string are not needed by any claim.  `create_note` and
`update_note` are modelled around an explicit stored document: the
Firestore reads/writes become record construction and record update, and
`_prepare_keywords`/`_prepare_trigger_words`, which are the same two-pass
normalization, become one `prepare_terms`. -/

/-- The cleaning loop of `normalize_string_list`: trim, drop empties,
deduplicate case-insensitively against `seen`, emit the lowercase key or
the trimmed original, stopping once `max_items` entries are emitted. -/
def normalize_string_aux (lowercase : Bool) (max_items : Option Nat) :
    List String → List String → List String → List String
  | [], _seen, acc => acc
  | raw :: rest, seen, acc =>
    let text := py_strip raw
    if text == "" then normalize_string_aux lowercase max_items rest seen acc
    else
      let key := py_lower text
      if seen.contains key then normalize_string_aux lowercase max_items rest seen acc
      else
        let acc2 := acc ++ [if lowercase then key else text]
        match max_items with
        | some m =>
          if m ≤ acc2.length then acc2
          else normalize_string_aux lowercase max_items rest (seen ++ [key]) acc2
        | none => normalize_string_aux lowercase max_items rest (seen ++ [key]) acc2

/-- `normalize_string_list` (`None` yields `[]`). -/
def normalize_string_list (values : Option (List String)) (lowercase : Bool)
    (max_items : Option Nat) : List String :=
  match values with
  | none => []
  | some vs => normalize_string_aux lowercase max_items vs [] []

theorem normalize_string_aux_lower (max_items : Option Nat)
    (vs : List String) : ∀ (seen accO : List String),
    normalize_string_aux true max_items vs seen (accO.map py_lower) =
      (normalize_string_aux false max_items vs seen accO).map py_lower := by
  induction vs with
  | nil => intro seen accO; rfl
  | cons raw rest ih =>
    intro seen accO
    simp only [normalize_string_aux]
    by_cases h1 : py_strip raw == ""
    · rw [if_pos h1, if_pos h1]
      exact ih seen accO
    · rw [if_neg h1, if_neg h1]
      by_cases h2 : seen.contains (py_lower (py_strip raw))
      · rw [if_pos h2, if_pos h2]
        exact ih seen accO
      · rw [if_neg h2, if_neg h2]
        have hacc : (accO.map py_lower) ++ [py_lower (py_strip raw)] =
            (accO ++ [py_strip raw]).map py_lower := by
          simp
        cases max_items with
        | none =>
          simp only [if_true, if_false, Bool.false_eq_true, ite_false, ite_true]
          rw [hacc]
          exact ih (seen ++ [py_lower (py_strip raw)]) (accO ++ [py_strip raw])
        | some m =>
          simp only [if_true, if_false, Bool.false_eq_true, ite_false, ite_true]
          rw [hacc]
          by_cases hm : m ≤ ((accO ++ [py_strip raw]).map py_lower).length
          · rw [if_pos hm, if_pos (by simpa using hm)]
          · rw [if_neg hm, if_neg (by simpa using hm)]
            exact ih (seen ++ [py_lower (py_strip raw)]) (accO ++ [py_strip raw])

/-- `_clean_title` of the notes service. -/
def clean_note_title (value : Option String) : String :=
  let t := py_strip (py_or value "")
  if t == "" then "New note" else t

/-- `_clean_content` of the notes service. -/
def clean_note_content (value : Option String) : String :=
  match value with
  | none => ""
  | some s => py_strip s

/-- `_prepare_keywords` / `_prepare_trigger_words`: the display-case list
and the lowercase index computed by the same two normalization passes. -/
def prepare_terms (values : Option (List String)) : List String × List String :=
  (normalize_string_list values false none, normalize_string_list values true none)

/-- A stored note document (the fields the notes service maintains). -/
structure NoteData where
  uid : String
  title : String
  content : String
  keywords : List String
  keywordsLower : List String
  triggerWords : List String
  triggerWordsLower : List String
deriving DecidableEq, Repr

/-- `create_note`: validate the uid, clean the fields, store both lists
and both lowercase indexes. -/
def create_note (uid : String) (title content : Option String)
    (keywords trigger_words : Option (List String)) : Except String NoteData :=
  if uid == "" then Except.error "uid is required to create a note"
  else Except.ok
    { uid := uid
      title := clean_note_title title
      content := clean_note_content content
      keywords := (prepare_terms keywords).1
      keywordsLower := (prepare_terms keywords).2
      triggerWords := (prepare_terms trigger_words).1
      triggerWordsLower := (prepare_terms trigger_words).2 }

/-- An update payload: the outer `Option` is key presence in the request,
the inner one a possibly-null value (the `excerpt` and `triggerwords`
alternate keys feed the same branches and are not modelled separately). -/
structure NoteUpdates where
  title : Option (Option String)
  content : Option (Option String)
  keywords : Option (Option (List String))
  triggerWords : Option (Option (List String))

/-- `update_note` on a stored note: ownership check, recompute exactly the
touched fields (keywords and trigger words recompute their lowercase
indexes), reject an empty payload, and merge into the stored document. -/
def update_note (stored : NoteData) (uid : String) (u : NoteUpdates) :
    Except String NoteData :=
  if stored.uid != uid then
    Except.error "Note does not belong to this uid."
  else if u.title = none ∧ u.content = none ∧ u.keywords = none ∧
      u.triggerWords = none then
    Except.error "No supported fields provided for update"
  else
    let n1 := match u.title with
      | some v => { stored with title := clean_note_title v }
      | none => stored
    let n2 := match u.content with
      | some v => { n1 with content := clean_note_content v }
      | none => n1
    let n3 := match u.keywords with
      | some v => { n2 with keywords := (prepare_terms v).1,
                            keywordsLower := (prepare_terms v).2 }
      | none => n2
    let n4 := match u.triggerWords with
      | some v => { n3 with triggerWords := (prepare_terms v).1,
                            triggerWordsLower := (prepare_terms v).2 }
      | none => n3
    Except.ok n4

/-- The C9 invariant: each lowercase index is the element-wise lowercase
of its display-case list (hence also of equal length). -/
def note_index_ok (n : NoteData) : Prop :=
  n.keywordsLower = n.keywords.map py_lower ∧
  n.triggerWordsLower = n.triggerWords.map py_lower

/-- C9.  The two normalization passes agree up to lowercasing, every note
produced by `create_note` satisfies the lowercase-index invariant, and
`update_note` preserves it: updates touching keywords or trigger words
recompute the corresponding index, updates not touching them leave both
the list and its index unchanged. -/
theorem note_lower_index_invariant :
    (∀ values : Option (List String),
      normalize_string_list values true none =
        (normalize_string_list values false none).map py_lower) ∧
    (∀ uid title content keywords trigger_words n,
      create_note uid title content keywords trigger_words = Except.ok n →
      note_index_ok n) ∧
    (∀ stored uid u n, note_index_ok stored →
      update_note stored uid u = Except.ok n → note_index_ok n) := by
  have hlist : ∀ values : Option (List String),
      normalize_string_list values true none =
        (normalize_string_list values false none).map py_lower := by
    intro values
    cases values with
    | none => rfl
    | some vs =>
      have := normalize_string_aux_lower none vs [] []
      simpa [normalize_string_list] using this
  refine ⟨hlist, ?_, ?_⟩
  · intro uid title content keywords trigger_words n h
    unfold create_note at h
    by_cases hu : uid == ""
    · rw [if_pos hu] at h
      cases h
    · rw [if_neg hu] at h
      cases h
      exact ⟨(hlist keywords).symm ▸ rfl, (hlist trigger_words).symm ▸ rfl⟩
  · intro stored uid u n hstored h
    unfold update_note at h
    by_cases hown : stored.uid != uid
    · rw [if_pos hown] at h
      cases h
    · rw [if_neg hown] at h
      by_cases hempty : u.title = none ∧ u.content = none ∧ u.keywords = none ∧
          u.triggerWords = none
      · rw [if_pos hempty] at h
        cases h
      · rw [if_neg hempty] at h
        obtain ⟨ut, uc, uk, utw⟩ := u
        cases ut <;> cases uc <;> cases uk <;> cases utw <;>
          simp only [Except.ok.injEq] at h <;>
          cases h <;>
          simp [note_index_ok, prepare_terms, hlist, hstored.1, hstored.2]

/-- C9, witness for `note_lower_index_invariant`: creating a note with
keywords `["Food", "food", " Diet "]` (case-insensitive duplicate and
padding) and trigger words `["Invoice"]` yields consistent lowercase
indexes. -/
theorem note_lower_index_invariant_witness :
    note_index_ok
      ⟨"u1", "Shopping", "eggs", ["Food", "Diet"], ["food", "diet"],
        ["Invoice"], ["invoice"]⟩ :=
  note_lower_index_invariant.2.1 "u1" (some "Shopping") (some "eggs")
    (some ["Food", "food", " Diet "]) (some ["Invoice"]) _ rfl

/-! ### C8 — trigger candidate extraction and note matching
(`notes/utils.py::extract_trigger_candidates`,
`notes/service.py::search_notes`, `find_notes_for_text`)

`TRIGGER_TOKEN_RE` is `[0-9A-Za-zÀ-ÖØ-öø-ÿ]+(?:['-][0-9A-Za-zÀ-ÖØ-öø-ÿ]+)*`:
runs of ASCII digits/letters and Latin-1 letters, where a single
apostrophe or hyphen *between* two runs joins them into one token.
`re.findall` over that pattern is implemented as a left-to-right scanner
(`tokenize_aux`); a separator not followed by a token character ends the
match before the separator, and scanning resumes on the following
character. -/

/-- The character class of `TRIGGER_TOKEN_RE`. -/
def is_token_char (c : Char) : Bool :=
  ('0' ≤ c && c ≤ '9') || ('A' ≤ c && c ≤ 'Z') || ('a' ≤ c && c ≤ 'z') ||
  ('À' ≤ c && c ≤ 'Ö') || ('Ø' ≤ c && c ≤ 'ö') || ('ø' ≤ c && c ≤ 'ÿ')

/-- The joining separators of `TRIGGER_TOKEN_RE` (apostrophe, hyphen). -/
def is_token_sep (c : Char) : Bool := c == Char.ofNat 39 || c == '-'

/-- Scanner state: outside a token, inside one (characters reversed), or
just after a candidate separator inside one. -/
inductive ScanState
  | outside
  | inTok (acc : List Char)
  | afterSep (acc : List Char) (sep : Char)

/-- Left-to-right scan equivalent to `TRIGGER_TOKEN_RE.findall`. -/
def tokenize_aux : ScanState → List Char → List (List Char)
  | ScanState.outside, [] => []
  | ScanState.inTok acc, [] => [acc.reverse]
  | ScanState.afterSep acc _, [] => [acc.reverse]
  | ScanState.outside, c :: cs =>
    if is_token_char c then tokenize_aux (ScanState.inTok [c]) cs
    else tokenize_aux ScanState.outside cs
  | ScanState.inTok acc, c :: cs =>
    if is_token_char c then tokenize_aux (ScanState.inTok (c :: acc)) cs
    else if is_token_sep c then tokenize_aux (ScanState.afterSep acc c) cs
    else acc.reverse :: tokenize_aux ScanState.outside cs
  | ScanState.afterSep acc sep, c :: cs =>
    if is_token_char c then tokenize_aux (ScanState.inTok (c :: sep :: acc)) cs
    else acc.reverse :: tokenize_aux ScanState.outside cs

/-- `TRIGGER_TOKEN_RE.findall(s)`. -/
def TRIGGER_TOKEN_findall (s : String) : List String :=
  (tokenize_aux ScanState.outside s.data).map String.mk

/-- The candidate loop of `extract_trigger_candidates`: skip tokens
shorter than `min_length`, skip tokens already collected (the `seen` set
always equals the result list), stop once `max_terms` are collected. -/
def extract_aux (min_length max_terms : Nat) :
    List String → List String → List String
  | [], acc => acc
  | t :: rest, acc =>
    if t.length < min_length then extract_aux min_length max_terms rest acc
    else if acc.contains t then extract_aux min_length max_terms rest acc
    else
      if max_terms ≤ (acc ++ [t]).length then acc ++ [t]
      else extract_aux min_length max_terms rest (acc ++ [t])

/-- `extract_trigger_candidates`: falsy text yields no candidates,
otherwise lowercase, tokenize, and run the candidate loop. -/
def extract_trigger_candidates (text : Option String)
    (max_terms min_length : Nat) : List String :=
  match text with
  | none => []
  | some s =>
    if s == "" then []
    else extract_aux min_length max_terms (TRIGGER_TOKEN_findall (py_lower s)) []

/-- Python `needle in hay` on character lists. -/
def chars_contain : List Char → List Char → Bool
  | hay, needle =>
    if needle.isPrefixOf hay then true
    else
      match hay with
      | [] => false
      | _ :: t => chars_contain t needle

/-- `search_notes` for one owner's notes, already ordered most recently
updated first: normalize the terms, scan a bounded prefix, keep notes
overlapping the trigger and keyword sets and matching the free-text
query, and stop at `limit` matches. -/
def search_notes (notes : List NoteData) (query : Option String)
    (trigger_terms keyword_terms : List String) (limit : Nat) :
    List NoteData :=
  let tts := normalize_string_list (some trigger_terms) true (some 10)
  let kts := normalize_string_list (some keyword_terms) true none
  let query_text := py_lower (py_strip (py_or query ""))
  let scan_limit := min (max (limit * 3) limit) 500
  let docs := notes.take scan_limit
  (docs.filter (fun n =>
    (tts.isEmpty || tts.any (fun t => n.triggerWordsLower.contains t)) &&
    (kts.isEmpty || kts.any (fun t => n.keywordsLower.contains t)) &&
    (query_text == "" ||
      chars_contain
        (py_lower (n.title ++ " " ++ n.content ++ " " ++
          String.intercalate " " n.keywords ++ " " ++
          String.intercalate " " n.triggerWords)).data
        query_text.data))).take limit

/-- `find_notes_for_text`: extract up to 10 candidates and search by
trigger overlap. -/
def find_notes_for_text (notes : List NoteData) (text : Option String)
    (limit : Nat) : List NoteData :=
  let triggers := extract_trigger_candidates text 10 2
  if triggers.isEmpty then []
  else search_notes notes none triggers [] limit

/-- Maximal alphanumeric runs (the claim's tokenization, formalized from
its words with the same character class): separators never join runs. -/
def alnum_runs_aux : List Char → List Char → List (List Char)
  | acc, [] => if acc.isEmpty then [] else [acc.reverse]
  | acc, c :: cs =>
    if is_token_char c then alnum_runs_aux (c :: acc) cs
    else if acc.isEmpty then alnum_runs_aux [] cs
    else acc.reverse :: alnum_runs_aux [] cs

/-- The claim's candidate extraction, formalized from its words:
lowercase, split into alphanumeric runs, drop tokens shorter than 2,
deduplicate keeping first occurrences, cap at 10. -/
def claimed_candidates (s : String) : List String :=
  (keep_first (((alnum_runs_aux [] (py_lower s).data).map String.mk).filter
    (fun t => 2 ≤ t.length))).take 10

/-- C8, counterexample.  On the text `"well-known"` the claim's
alphanumeric-run tokenization yields the candidates `["well", "known"]`,
but `TRIGGER_TOKEN_RE` joins runs around a single hyphen or apostrophe,
so the code extracts the single candidate `["well-known"]`. -/
theorem extract_trigger_candidates_claim_false :
    extract_trigger_candidates (some "well-known") 10 2 = ["well-known"] ∧
    claimed_candidates "well-known" = ["well", "known"] ∧
    (["well-known"] : List String) ≠ ["well", "known"] := by
  refine ⟨rfl, ?_, by decide⟩
  unfold claimed_candidates
  have h : (((alnum_runs_aux [] (py_lower "well-known").data).map String.mk).filter
      (fun t => 2 ≤ t.length)) = ["well", "known"] := by decide
  rw [h, keep_first]
  simp [keep_first]

theorem extract_aux_spec (min_length max_terms : Nat) (toks : List String) :
    ∀ acc : List String, acc.length < max_terms →
    extract_aux min_length max_terms toks acc =
      (acc ++ keep_first ((toks.filter (fun t => min_length ≤ t.length)).filter
        (fun t => !acc.contains t))).take max_terms := by
  induction toks with
  | nil =>
    intro acc hlt
    simp [extract_aux, keep_first, List.take_of_length_le (Nat.le_of_lt hlt)]
  | cons t rest ih =>
    intro acc hlt
    simp only [extract_aux]
    by_cases h1 : t.length < min_length
    · rw [if_pos h1, ih acc hlt]
      have h1' : (decide (min_length ≤ t.length)) = false := by
        simp
        omega
      simp [List.filter_cons, h1']
    · rw [if_neg h1]
      have h1' : (decide (min_length ≤ t.length)) = true := by
        simp
        omega
      by_cases h2 : acc.contains t
      · rw [if_pos h2, ih acc hlt]
        have h2m : t ∈ acc := by simpa using h2
        simp [List.filter_cons, h1', h2m]
      · rw [if_neg h2]
        have h2m : t ∉ acc := by simpa using h2
        have hcons : ((t :: rest).filter (fun x => min_length ≤ x.length)).filter
            (fun x => !acc.contains x) =
            t :: ((rest.filter (fun x => min_length ≤ x.length)).filter
              (fun x => !acc.contains x)) := by
          simp [List.filter_cons, h1', h2m]
        by_cases h3 : max_terms ≤ (acc ++ [t]).length
        · rw [if_pos h3]
          have hacc : acc.length + 1 = max_terms := by
            simp at h3
            omega
          rw [hcons, List.take_append_eq_append_take,
            List.take_of_length_le (by omega : acc.length ≤ max_terms)]
          have hone : max_terms - acc.length = 1 := by omega
          rw [hone]
          congr 1
          simp [keep_first]
        · rw [if_neg h3]
          have hlt2 : (acc ++ [t]).length < max_terms := by
            simp at h3 ⊢
            omega
          rw [ih (acc ++ [t]) hlt2, filter_contains_snoc, hcons]
          simp [keep_first]

/-- A stored note indexed under the trigger word `invoice`. -/
def invoice_note : NoteData :=
  ⟨"u1", "Invoices", "march invoice data", [], [], ["Invoice"], ["invoice"]⟩

/-- C8, amended.  Candidate extraction lowercases the text, tokenizes it
with `TRIGGER_TOKEN_RE` (runs of digits and Latin letters, where a single
apostrophe or hyphen between two runs joins them into one token), drops
tokens shorter than 2 characters, deduplicates preserving first
occurrence, and returns at most 10 candidates; in particular
`"Please review the Invoice now"` yields the candidate `"invoice"`, and
`find_notes_for_text` returns the note whose lowercase trigger-word index
contains `"invoice"`. -/
theorem extract_trigger_candidates_spec :
    (∀ s : String,
      extract_trigger_candidates (some s) 10 2 =
        (keep_first ((TRIGGER_TOKEN_findall (py_lower s)).filter
          (fun t => 2 ≤ t.length))).take 10) ∧
    "invoice" ∈
      extract_trigger_candidates (some "Please review the Invoice now") 10 2 ∧
    find_notes_for_text [invoice_note] (some "Please review the Invoice now") 5 =
      [invoice_note] := by
  refine ⟨?_, by decide, rfl⟩
  intro s
  by_cases hs : s == ""
  · have hs' : s = "" := by simpa using hs
    subst hs'
    simp [extract_trigger_candidates, TRIGGER_TOKEN_findall, tokenize_aux,
      py_lower, keep_first]
  · simp only [extract_trigger_candidates]
    rw [if_neg hs, extract_aux_spec 2 10 _ [] (by simp)]
    simp
